import Mathlib

/-!
Verification of the rusticsearch core against its specification.

This file shallowly embeds the relevant Rust source:
  * `src/src/search/term.rs`        — `Term` and `Term::to_bytes`
  * `src/src/mapping/mod.rs`        — `FieldType`, `FieldMapping::process_value_for_index`
  * `src/src/query.rs`              — `Filter`, `Query`, parsers, `Filter::matches`
  * `src/abra_rocksdb/src/chunk.rs` — `ChunkManager`, `ActiveChunksIterator`

Machine integers are modelled as `Nat`/`Int` with explicit reductions
modulo `2 ^ 32` / `2 ^ 64` where the Rust types wrap.  Rust panics
(`unwrap` on `None`/`Err`, out-of-bounds indexing) are modelled as the
`none` case of an `Option` result.
-/

mutual

/-- The JSON value type of `rustc_serialize::json::Json`.  The `F64`
payload is abstracted as the bit pattern of the float (no claim under
verification compares floating-point payloads); all other payloads are
modelled exactly.  `Array` carries a `Vec<Json>` and `Object` a
`BTreeMap<String, Json>` in the source; they are modelled as the mutual
sequence types below, an object being an entry list in map iteration
order, so `keys().nth(0)` is the head's key. -/
inductive Json where
  | Null : Json
  | Boolean (b : Bool) : Json
  | I64 (n : Int) : Json
  | U64 (n : Nat) : Json
  | F64 (bits : Nat) : Json
  | String (s : String) : Json
  | Array (xs : JsonArr) : Json
  | Object (entries : JsonObj) : Json
deriving DecidableEq

/-- The element sequence of a JSON array. -/
inductive JsonArr where
  | nil : JsonArr
  | cons (head : Json) (tail : JsonArr) : JsonArr
deriving DecidableEq

/-- The key-value entry sequence of a JSON object, in map iteration
order. -/
inductive JsonObj where
  | nil : JsonObj
  | cons (key : String) (value : Json) (tail : JsonObj) : JsonObj
deriving DecidableEq

end

/-- `BTreeMap::get` on the entry-list model: first entry with the given
key. -/
def getKey : JsonObj → String → Option Json
  | JsonObj.nil, _ => none
  | JsonObj.cons k v rest, key => if k = key then some v else getKey rest key

/-- Unix timestamp value of `chrono::DateTime<UTC>`: `timestamp` is the
value of `.timestamp()` (whole seconds since the epoch), `nanosecond`
the value of `.nanosecond()` (nanosecond within the second). -/
structure DateTimeUTC where
  timestamp : Int
  nanosecond : Nat
deriving DecidableEq

/-- `Term` from `src/src/search/term.rs`. -/
inductive Term where
  | String (s : String) : Term
  | Boolean (b : Bool) : Term
  | I64 (v : Int) : Term
  | U64 (v : Nat) : Term
  | DateTime (d : DateTimeUTC) : Term
deriving DecidableEq

/-- `k`-byte big-endian encoding of a natural number (the encoding
written by `byteorder`'s `write_u64::<BigEndian>` for `k = 8`). -/
def beBytes : Nat → Nat → List Nat
  | 0, _ => []
  | k + 1, n => (n / 2 ^ (8 * k)) % 256 :: beBytes k (n % 2 ^ (8 * k))

/-- UTF-8 encoding of one Unicode scalar value (what one `char` of a
Rust `String` contributes to `String::as_bytes`). -/
def utf8Char (c : Char) : List Nat :=
  let n := c.toNat
  if n < 0x80 then [n]
  else if n < 0x800 then [0xC0 + n / 0x40, 0x80 + n % 0x40]
  else if n < 0x10000 then
    [0xE0 + n / 0x1000, 0x80 + (n / 0x40) % 0x40, 0x80 + n % 0x40]
  else
    [0xF0 + n / 0x40000, 0x80 + (n / 0x1000) % 0x40, 0x80 + (n / 0x40) % 0x40, 0x80 + n % 0x40]

/-- The byte sequence of a Rust `String` (`String::as_bytes`): the
concatenated UTF-8 encodings of its characters. -/
def utf8Bytes (s : String) : List Nat :=
  (s.toList.map utf8Char).flatten

/-- `Term::to_bytes` from `src/src/search/term.rs` lines 42-79.
`write_i64::<BigEndian>` writes the 8-byte big-endian two's-complement
of the value, modelled as the big-endian bytes of the value reduced
modulo `2 ^ 64`. -/
def Term.to_bytes : Term → List Nat
  | Term.String s => utf8Bytes s
  | Term.Boolean value => if value then [116] else [102]
  | Term.I64 value => beBytes 8 ((value % (2 ^ 64 : Int)).toNat)
  | Term.U64 value => beBytes 8 (value % 2 ^ 64)
  | Term.DateTime value =>
    let timestamp := value.timestamp
    let micros := value.nanosecond / 1000
    let timestamp_with_micros := timestamp * 1000000 + (micros : Int)
    beBytes 8 ((timestamp_with_micros % (2 ^ 64 : Int)).toNat)

/-- Modelled from the spec: the `chrono` parse (external to `src/`) of
the RFC 3339 string `"2016-07-23T16:15:00+01:00"`, i.e. the instant
2016-07-23 15:15:00 UTC.  Days from 1970-01-01: 46 years with 11 leap
days give 16801 days to 2016-01-01, plus 204 days to 07-23, so the
timestamp is `(16801 + 204) * 86400 + 15 * 3600 + 15 * 60 = 1469286900`
seconds, with zero nanoseconds. -/
def dtJuly2016 : DateTimeUTC := ⟨1469286900, 0⟩

/-- C1: `Term.to_bytes` is deterministic (a pure function of the term)
and produces exactly the spec's literal vectors for the listed terms. -/
theorem c1_to_bytes_literal_vectors :
    (∀ t : Term, t.to_bytes = t.to_bytes)
    ∧ (Term.String "foo").to_bytes = [102, 111, 111]
    ∧ (Term.String "").to_bytes = []
    ∧ (Term.Boolean true).to_bytes = [116]
    ∧ (Term.Boolean false).to_bytes = [102]
    ∧ (Term.I64 123).to_bytes = [0, 0, 0, 0, 0, 0, 0, 123]
    ∧ (Term.I64 (-123)).to_bytes = [255, 255, 255, 255, 255, 255, 255, 133]
    ∧ (Term.U64 123).to_bytes = [0, 0, 0, 0, 0, 0, 0, 123]
    ∧ (Term.DateTime dtJuly2016).to_bytes = [0, 5, 56, 79, 3, 191, 101, 0] := by
  refine ⟨fun t => rfl, ?_, ?_, ?_, ?_, ?_, ?_, ?_, ?_⟩ <;> decide

/-- Byte-lexicographic strict order on byte sequences (the order a
byte-sorted key-value store such as RocksDB applies to keys, and slice
`Ord` in Rust): a proper prefix is smaller, otherwise the first
differing byte decides. -/
def bytesLt : List Nat → List Nat → Bool
  | _, [] => false
  | [], _ :: _ => true
  | a :: as, b :: bs => if a < b then true else if a = b then bytesLt as bs else false

/-- Big-endian encoding is strictly monotone on values below `2 ^ (8 k)`:
a numerically smaller value yields byte-lexicographically smaller
bytes. -/
theorem beBytes_strictMono (k : Nat) :
    ∀ a b : Nat, a < b → b < 2 ^ (8 * k) →
      bytesLt (beBytes k a) (beBytes k b) = true := by
  induction k with
  | zero =>
    intro a b hab hb
    simp only [Nat.mul_zero, pow_zero, Nat.lt_one_iff] at hb
    omega
  | succ k ih =>
    intro a b hab hb
    have hd : 0 < 2 ^ (8 * k) := Nat.pos_pow_of_pos _ (by norm_num)
    have hdivle : a / 2 ^ (8 * k) ≤ b / 2 ^ (8 * k) :=
      Nat.div_le_div_right (Nat.le_of_lt hab)
    rcases Nat.lt_or_ge (a / 2 ^ (8 * k)) (b / 2 ^ (8 * k)) with hlt | hge
    · -- the leading bytes already differ
      have hblt : b / 2 ^ (8 * k) < 2 ^ 8 := by
        have : b < 2 ^ (8 * k) * 2 ^ 8 := by
          calc b < 2 ^ (8 * (k + 1)) := hb
          _ = 2 ^ (8 * k) * 2 ^ 8 := by rw [← pow_add]; ring_nf
        exact Nat.div_lt_of_lt_mul (by omega)
      have hmoda : a / 2 ^ (8 * k) % 256 = a / 2 ^ (8 * k) :=
        Nat.mod_eq_of_lt (lt_of_le_of_lt hdivle hblt)
      have hmodb : b / 2 ^ (8 * k) % 256 = b / 2 ^ (8 * k) :=
        Nat.mod_eq_of_lt hblt
      simp only [beBytes, bytesLt, hmoda, hmodb, hlt, if_pos]
    · -- equal leading bytes, recurse on the remainders
      have hdiveq : a / 2 ^ (8 * k) = b / 2 ^ (8 * k) := Nat.le_antisymm hdivle hge
      have hmodlt : a % 2 ^ (8 * k) < b % 2 ^ (8 * k) := by
        have ha' := Nat.div_add_mod a (2 ^ (8 * k))
        have hb' := Nat.div_add_mod b (2 ^ (8 * k))
        rw [hdiveq] at ha'
        omega
      have hmodbound : b % 2 ^ (8 * k) < 2 ^ (8 * k) := Nat.mod_lt _ hd
      have htail := ih (a % 2 ^ (8 * k)) (b % 2 ^ (8 * k)) hmodlt hmodbound
      simp only [beBytes, bytesLt, hdiveq]
      simp [htail]

/-- The two's-complement word (reduction modulo `2 ^ 64`) of a
non-negative `i64` value is itself. -/
theorem i64_word_nonneg (x : Int) (h0 : 0 ≤ x) (h1 : x < 2 ^ 63) :
    ((x % (2 ^ 64 : Int)).toNat) = x.toNat := by
  have : x % (2 ^ 64 : Int) = x := Int.emod_eq_of_lt h0 (by omega)
  rw [this]

/-- The two's-complement word of a negative `i64` value is the value
shifted up by `2 ^ 64` (so it lies in `[2 ^ 63, 2 ^ 64)`). -/
theorem i64_word_neg (n : Int) (h0 : -2 ^ 63 ≤ n) (h1 : n < 0) :
    ((n % (2 ^ 64 : Int)).toNat) = (n + 2 ^ 64).toNat := by
  omega

/-- C7: for signed 64-bit values, `to_bytes` is byte-lexicographically
monotone on the non-negative range, and every negative value's encoding
compares greater than every non-negative value's encoding (numeric
order is not preserved across the sign boundary). -/
theorem c7_i64_bytes_order :
    (∀ x y : Int, 0 ≤ x → x < y → y < 2 ^ 63 →
      bytesLt (Term.to_bytes (Term.I64 x)) (Term.to_bytes (Term.I64 y)) = true)
    ∧ (∀ n p : Int, -2 ^ 63 ≤ n → n < 0 → 0 ≤ p → p < 2 ^ 63 →
      bytesLt (Term.to_bytes (Term.I64 p)) (Term.to_bytes (Term.I64 n)) = true) := by
  constructor
  · intro x y hx hxy hy
    show bytesLt (beBytes 8 ((x % (2 ^ 64 : Int)).toNat))
      (beBytes 8 ((y % (2 ^ 64 : Int)).toNat)) = true
    rw [i64_word_nonneg x hx (by omega), i64_word_nonneg y (by omega) hy]
    apply beBytes_strictMono
    · omega
    · show y.toNat < 2 ^ 64
      omega
  · intro n p hn hn0 hp hp1
    show bytesLt (beBytes 8 ((p % (2 ^ 64 : Int)).toNat))
      (beBytes 8 ((n % (2 ^ 64 : Int)).toNat)) = true
    rw [i64_word_nonneg p hp hp1, i64_word_neg n hn hn0]
    apply beBytes_strictMono
    · omega
    · show (n + 2 ^ 64).toNat < 2 ^ 64
      omega

/-- Witness for C7 at `x = 0 < y = 1` and `n = -1, p = 0`. -/
theorem c7_i64_bytes_order_witness :
    bytesLt (Term.to_bytes (Term.I64 0)) (Term.to_bytes (Term.I64 1)) = true
    ∧ bytesLt (Term.to_bytes (Term.I64 0)) (Term.to_bytes (Term.I64 (-1))) = true :=
  ⟨c7_i64_bytes_order.1 0 1 (by decide) (by decide) (by decide),
   c7_i64_bytes_order.2 (-1) 0 (by decide) (by decide) (by decide) (by decide)⟩

/-- Decimal ASCII digits of a natural number (`u32::to_string` /
`ToString for u32` in Rust), written with explicit fuel to make the
recursion structural; `fuel = n + 1` always suffices. -/
def decBytesAux : Nat → Nat → List Nat
  | 0, _ => []
  | fuel + 1, n => if n < 10 then [48 + n] else decBytesAux fuel (n / 10) ++ [48 + n % 10]

/-- Decimal ASCII bytes of a natural number, e.g. `decBytes 12 = [49, 50]`. -/
def decBytes (n : Nat) : List Nat := decBytesAux (n + 1) n

/-- `str::parse::<u32>` applied to raw bytes (composed with the
preceding `to_utf8().unwrap()`): `none` models a panic of either
`unwrap` (invalid UTF-8, or a parse failure: empty input, a non-digit
byte, or overflow past `u32::MAX`).  A single leading `'+'` is accepted
by Rust's integer parser. -/
def parseU32 (bytes : List Nat) : Option Nat :=
  let digits := match bytes with
    | 43 :: rest => rest
    | _ => bytes
  if digits = [] then none
  else if digits.all (fun b => decide (48 ≤ b) && decide (b ≤ 57)) then
    let v := digits.foldl (fun acc b => acc * 10 + (b - 48)) 0
    if v < 2 ^ 32 then some v else none
  else none

/-- The ordered key-value substrate (`rocksdb::DB` restricted to the
point `get`/`put` operations the chunk manager uses), modelled as an
association list of byte-sequence keys and values. -/
structure KVStore where
  entries : List (List Nat × List Nat)
deriving DecidableEq

/-- Entry-list update for `DB::put`: replace the value at the key, or
append the entry. -/
def kvPutGo (key value : List Nat) : List (List Nat × List Nat) → List (List Nat × List Nat)
  | [] => [(key, value)]
  | (k, v) :: rest => if k = key then (k, value) :: rest else (k, v) :: kvPutGo key value rest

/-- Entry-list lookup for `DB::get`: first entry with the key. -/
def kvGetGo (key : List Nat) : List (List Nat × List Nat) → Option (List Nat)
  | [] => none
  | (k, v) :: rest => if k = key then some v else kvGetGo key rest

/-- `DB::put`. -/
def KVStore.put (db : KVStore) (key value : List Nat) : KVStore :=
  ⟨kvPutGo key value db.entries⟩

/-- `DB::get`. -/
def KVStore.get (db : KVStore) (key : List Nat) : Option (List Nat) :=
  kvGetGo key db.entries

/-- Reading back the key just written returns the written value. -/
theorem KVStore.get_put_same (db : KVStore) (k v : List Nat) :
    (db.put k v).get k = some v := by
  show kvGetGo k (kvPutGo k v db.entries) = some v
  induction db.entries with
  | nil => simp [kvPutGo, kvGetGo]
  | cons e rest ih =>
    obtain ⟨ek, ev⟩ := e
    by_cases hek : ek = k
    · simp [kvPutGo, kvGetGo, hek]
    · simp [kvPutGo, kvGetGo, hek, ih]

/-- The bytes of the durable counter key `b".next_chunk"`. -/
def nextChunkKey : List Nat := [46, 110, 101, 120, 116, 95, 99, 104, 117, 110, 107]

/-- `ChunkManager` from `src/abra_rocksdb/src/chunk.rs`: the in-memory
`AtomicU32` allocation counter (always `< 2 ^ 32`). -/
structure ChunkManager where
  next_chunk : Nat
deriving DecidableEq

/-- `ChunkManager::new` (lines 14-21): writes the literal `"1"` to the
durable counter key and starts the in-memory counter at 1. -/
def ChunkManager.new (db : KVStore) : ChunkManager × KVStore :=
  (⟨1⟩, db.put nextChunkKey [49])

/-- `ChunkManager::open` (lines 23-35): reads the durable counter key;
an absent key (and, in the source, a substrate read error, which this
pure model has no counterpart of) falls back to 1, while a present but
unparsable value panics (`unwrap`), modelled as `none`. -/
def ChunkManager.open (db : KVStore) : Option ChunkManager :=
  match db.get nextChunkKey with
  | some bytes =>
    match parseU32 bytes with
    | some next_chunk => some ⟨next_chunk⟩
    | none => none
  | none => some ⟨1⟩

/-- `ChunkManager::new_chunk` (lines 37-41): `fetch_add(1)` returns the
pre-increment counter (wrapping modulo `2 ^ 32`) as the allocated id,
then writes the decimal string of `next_chunk + 1` to the durable
counter key. -/
def ChunkManager.new_chunk (cm : ChunkManager) (db : KVStore) :
    Nat × ChunkManager × KVStore :=
  let next_chunk := cm.next_chunk
  (next_chunk, ⟨(next_chunk + 1) % 2 ^ 32⟩,
    db.put nextChunkKey (decBytes ((next_chunk + 1) % 2 ^ 32)))

/-- A single-threaded sequence of `n` `new_chunk` calls, collecting the
returned ids in call order. -/
def runNewChunks : ChunkManager → KVStore → Nat → List Nat × ChunkManager × KVStore
  | cm, db, 0 => ([], cm, db)
  | cm, db, n + 1 =>
    let r := cm.new_chunk db
    let rest := runNewChunks r.2.1 r.2.2 n
    (r.1 :: rest.1, rest.2)

/-- Ids returned by a single-threaded call sequence that stays below the
`u32` wrap point: call `i` (0-based) returns `counter + i`. -/
theorem runNewChunks_ids (n : Nat) :
    ∀ cm : ChunkManager, ∀ db : KVStore, cm.next_chunk + n ≤ 2 ^ 32 →
      (runNewChunks cm db n).1 = (List.range n).map (cm.next_chunk + ·) := by
  induction n with
  | zero => intro cm db _; simp [runNewChunks]
  | succ n ih =>
    intro cm db hbound
    have hfirst : (runNewChunks cm db (n + 1)).1
        = cm.next_chunk
          :: (runNewChunks ⟨(cm.next_chunk + 1) % 2 ^ 32⟩ (cm.new_chunk db).2.2 n).1 := rfl
    rcases Nat.lt_or_ge (cm.next_chunk + 1) (2 ^ 32) with hlt | hge
    · have htail := ih ⟨(cm.next_chunk + 1) % 2 ^ 32⟩ (cm.new_chunk db).2.2
        (by show (cm.next_chunk + 1) % 2 ^ 32 + n ≤ 2 ^ 32; omega)
      rw [hfirst, htail, List.range_succ_eq_map, List.map_cons, List.map_map]
      have hfun : ((⟨(cm.next_chunk + 1) % 2 ^ 32⟩ : ChunkManager).next_chunk + ·)
          = ((cm.next_chunk + ·) ∘ Nat.succ) := by
        funext x
        show (cm.next_chunk + 1) % 2 ^ 32 + x = cm.next_chunk + (x + 1)
        omega
      rw [hfun]
      simp
    · have hn : n = 0 := by omega
      subst hn
      simp [runNewChunks, ChunkManager.new_chunk, List.range_succ_eq_map]

/-- C2: after `new`, three `new_chunk` calls on the fresh store return
1, 2, 3, with the durable `".next_chunk"` value equal to the decimal
encoding of (returned id + 1) after each call; the durable value after
any single non-wrapping call equals (returned id + 1); and any
single-threaded non-wrapping call sequence returns strictly increasing
ids starting at the counter value fixed by `new`/`open`. -/
theorem c2_new_chunk_sequence :
    (let s0 := ChunkManager.new ⟨[]⟩
     let r1 := s0.1.new_chunk s0.2
     let r2 := r1.2.1.new_chunk r1.2.2
     let r3 := r2.2.1.new_chunk r2.2.2
     r1.1 = 1 ∧ r2.1 = 2 ∧ r3.1 = 3
       ∧ r1.2.2.get nextChunkKey = some (decBytes (r1.1 + 1))
       ∧ r2.2.2.get nextChunkKey = some (decBytes (r2.1 + 1))
       ∧ r3.2.2.get nextChunkKey = some (decBytes (r3.1 + 1)))
    ∧ (∀ cm : ChunkManager, ∀ db : KVStore, cm.next_chunk + 1 < 2 ^ 32 →
        ((cm.new_chunk db).2.2).get nextChunkKey = some (decBytes ((cm.new_chunk db).1 + 1)))
    ∧ (∀ cm : ChunkManager, ∀ db : KVStore, ∀ n : Nat, cm.next_chunk + n ≤ 2 ^ 32 →
        (runNewChunks cm db n).1 = (List.range n).map (cm.next_chunk + ·)
          ∧ List.Pairwise (· < ·) (runNewChunks cm db n).1
          ∧ (runNewChunks cm db n).1.head? = if n = 0 then none else some cm.next_chunk) := by
  refine ⟨by decide, ?_, ?_⟩
  · intro cm db hlt
    have hmod : (cm.next_chunk + 1) % 2 ^ 32 = cm.next_chunk + 1 := Nat.mod_eq_of_lt hlt
    show (db.put nextChunkKey (decBytes ((cm.next_chunk + 1) % 2 ^ 32))).get nextChunkKey
      = some (decBytes (cm.next_chunk + 1))
    rw [KVStore.get_put_same, hmod]
  · intro cm db n hbound
    refine ⟨runNewChunks_ids n cm db hbound, ?_, ?_⟩
    · rw [runNewChunks_ids n cm db hbound]
      exact (List.pairwise_lt_range n).map _ (fun a b hab => by omega)
    · rw [runNewChunks_ids n cm db hbound]
      cases n with
      | zero => simp
      | succ m => simp [List.range_succ_eq_map]

/-- Witness for C2: the durable counter after one call from counter 5,
and the id sequence of three calls from counter 1. -/
theorem c2_new_chunk_sequence_witness :
    (((ChunkManager.mk 5).new_chunk ⟨[]⟩).2.2.get nextChunkKey
        = some (decBytes (((ChunkManager.mk 5).new_chunk ⟨[]⟩).1 + 1)))
    ∧ ((runNewChunks ⟨1⟩ ⟨[]⟩ 3).1 = (List.range 3).map ((1 : Nat) + ·)
        ∧ List.Pairwise (· < ·) (runNewChunks ⟨1⟩ ⟨[]⟩ 3).1
        ∧ (runNewChunks ⟨1⟩ ⟨[]⟩ 3).1.head? = if 3 = 0 then none else some 1) :=
  ⟨c2_new_chunk_sequence.2.1 ⟨5⟩ ⟨[]⟩ (by decide),
   c2_new_chunk_sequence.2.2 ⟨1⟩ ⟨[]⟩ 3 (by decide)⟩

/-- C4 counterexample: a durable counter key holding `"x"` (byte 120)
is present but unparsable; `ChunkManager::open` panics on it (modelled
`none`) instead of falling back to counter 1 as the claim states. -/
theorem c4_open_unparsable_counterexample :
    ChunkManager.open ⟨[(nextChunkKey, [120])]⟩ = none
    ∧ ChunkManager.open ⟨[(nextChunkKey, [120])]⟩ ≠ some ⟨1⟩ := by
  constructor
  · decide
  · decide

/-- C4 (amended): `open` resumes from a present, parsable durable
counter value; falls back to 1 when the key is absent; and panics
(rather than falling back) when the key is present but unparsable. -/
theorem c4_open_resume_fallback_panic :
    (∀ db : KVStore, ∀ bytes : List Nat, ∀ n : Nat,
      db.get nextChunkKey = some bytes → parseU32 bytes = some n →
        ChunkManager.open db = some ⟨n⟩)
    ∧ (∀ db : KVStore, db.get nextChunkKey = none → ChunkManager.open db = some ⟨1⟩)
    ∧ (∀ db : KVStore, ∀ bytes : List Nat,
      db.get nextChunkKey = some bytes → parseU32 bytes = none →
        ChunkManager.open db = none) := by
  refine ⟨?_, ?_, ?_⟩
  · intro db bytes n hget hparse
    simp [ChunkManager.open, hget, hparse]
  · intro db hget
    simp [ChunkManager.open, hget]
  · intro db bytes hget hparse
    simp [ChunkManager.open, hget, hparse]

/-- Witness for C4 (amended) on three concrete stores: counter `"5"`,
no counter key, and unparsable counter `"x"`. -/
theorem c4_open_resume_fallback_panic_witness :
    ChunkManager.open ⟨[(nextChunkKey, [53])]⟩ = some ⟨5⟩
    ∧ ChunkManager.open ⟨[]⟩ = some ⟨1⟩
    ∧ ChunkManager.open ⟨[(nextChunkKey, [120])]⟩ = none :=
  ⟨c4_open_resume_fallback_panic.1 ⟨[(nextChunkKey, [53])]⟩ [53] 5 (by decide) (by decide),
   c4_open_resume_fallback_panic.2.1 ⟨[]⟩ (by decide),
   c4_open_resume_fallback_panic.2.2 ⟨[(nextChunkKey, [120])]⟩ [120] (by decide) (by decide)⟩

/-- A point-in-time snapshot of the substrate (`rocksdb::Snapshot`):
its entries listed in ascending byte-lexicographic key order, which is
the order a forward RocksDB iterator visits them. -/
structure Snapshot where
  entries : List (List Nat × List Nat)
deriving DecidableEq

/-- `snapshot.iterator(IteratorMode::From(start, Direction::Forward))`:
the iterator is positioned at the smallest key `≥ start`, i.e. on the
key-ordered entry list everything before the first such key is
skipped. -/
def Snapshot.iteratorFrom (snap : Snapshot) (start : List Nat) :
    List (List Nat × List Nat) :=
  snap.entries.dropWhile (fun e => bytesLt e.1 start)

/-- `ActiveChunksIterator` from `src/abra_rocksdb/src/chunk.rs`:
the remaining entries of the underlying `DBIterator` plus the `fused`
flag. -/
structure ActiveChunksIterator where
  iter : List (List Nat × List Nat)
  fused : Bool
deriving DecidableEq

/-- `ChunkManager::iter_active` (lines 43-48): a fresh iterator over
the snapshot, positioned at the smallest key `≥ b"a"` (`[97]`),
`fused = false`. -/
def ChunkManager.iter_active (_cm : ChunkManager) (snap : Snapshot) :
    ActiveChunksIterator :=
  ⟨snap.iteratorFrom [97], false⟩

/-- `ActiveChunksIterator::next` (lines 61-80).  The first component is
`none` for a panic (`k[0]` on an empty key, or an id suffix on which
`parse::<u32>` fails), `some none` for Rust's `None` (exhaustion), and
`some (some id)` for a yielded id; the second is the iterator state
afterwards. -/
def ActiveChunksIterator.next (it : ActiveChunksIterator) :
    Option (Option Nat) × ActiveChunksIterator :=
  if it.fused then (some none, it)
  else
    match it.iter with
    | (k, _) :: rest =>
      match k with
      | [] => (none, ⟨rest, it.fused⟩)
      | b :: suffix =>
        if b ≠ 97 then (some none, ⟨rest, true⟩)
        else
          match parseU32 suffix with
          | some id => (some (some id), ⟨rest, it.fused⟩)
          | none => (none, ⟨rest, it.fused⟩)
    | [] => (some none, ⟨[], true⟩)

/-- Drain an iterator with the given fuel: the list of yielded ids up
to exhaustion, or `none` if a `next` call panics. -/
def collectActive : ActiveChunksIterator → Nat → Option (List Nat)
  | _, 0 => some []
  | it, fuel + 1 =>
    match it.next with
    | (none, _) => none
    | (some none, _) => some []
    | (some (some id), it') => (collectActive it' fuel).map (id :: ·)

/-- The yields of a single forward scan over an entry list: suffixes of
the initial run of keys with first byte `'a'` parsed as ids, stopping
at the first key without the prefix or at list exhaustion; `none` for
a panic (empty key or unparsable suffix). -/
def scanYields : List (List Nat × List Nat) → Option (List Nat)
  | [] => some []
  | (k, _) :: rest =>
    match k with
    | [] => none
    | b :: suffix =>
      if b = 97 then
        match parseU32 suffix with
        | some id => (scanYields rest).map (id :: ·)
        | none => none
      else some []

/-- An unfused iterator with enough fuel drains to exactly the single
forward scan of its remaining entries. -/
theorem collectActive_eq_scanYields :
    ∀ l : List (List Nat × List Nat), ∀ fuel : Nat, l.length < fuel →
      collectActive ⟨l, false⟩ fuel = scanYields l := by
  intro l
  induction l with
  | nil =>
    intro fuel hf
    match fuel, hf with
    | fuel + 1, _ => simp [collectActive, ActiveChunksIterator.next, scanYields]
  | cons e rest ih =>
    intro fuel hf
    match fuel, hf with
    | fuel + 1, hf =>
      obtain ⟨k, v⟩ := e
      match k with
      | [] => simp [collectActive, ActiveChunksIterator.next, scanYields]
      | b :: suffix =>
        by_cases hb : b = 97
        · subst hb
          match hp : parseU32 suffix with
          | some id =>
            have := ih fuel (by simpa using hf)
            simp [collectActive, ActiveChunksIterator.next, scanYields, hp, this]
          | none =>
            simp [collectActive, ActiveChunksIterator.next, scanYields, hp]
        · simp [collectActive, ActiveChunksIterator.next, scanYields, hb]

/-- The example snapshot: the durable counter key (first byte `'.'`),
active-chunk markers `"a1"`, `"a2"`, `"a5"`, and an unrelated key
`"b9"` whose first byte differs, in ascending key order. -/
def exampleSnapshot : Snapshot :=
  ⟨[(nextChunkKey, [52]), ([97, 49], []), ([97, 50], []), ([97, 53], []), ([98, 57], [])]⟩

/-- C5: `iter_active` on the example snapshot yields exactly [1, 2, 5];
a fused iterator permanently returns `None` without changing state; an
iterator that returns `None` is fused afterwards; and with sufficient
fuel an unfused iterator's drain is the single forward scan of its
remaining entries (stopping at the first key that lacks the `'a'`
prefix or at exhaustion). -/
theorem c5_iter_active_scan :
    collectActive ((ChunkManager.mk 6).iter_active exampleSnapshot) 10 = some [1, 2, 5]
    ∧ (∀ it : ActiveChunksIterator, it.fused = true → it.next = (some none, it))
    ∧ (∀ it it' : ActiveChunksIterator, it.next = (some none, it') → it'.fused = true)
    ∧ (∀ snap : Snapshot, ∀ cm : ChunkManager, ∀ fuel : Nat,
        (cm.iter_active snap).iter.length < fuel →
          collectActive (cm.iter_active snap) fuel
            = scanYields (snap.entries.dropWhile (fun e => bytesLt e.1 [97]))) := by
  refine ⟨by decide, ?_, ?_, ?_⟩
  · intro it hf
    simp [ActiveChunksIterator.next, hf]
  · intro it it' hnext
    by_cases hf : it.fused
    · rw [ActiveChunksIterator.next, if_pos hf] at hnext
      cases hnext
      exact hf
    · rw [ActiveChunksIterator.next, if_neg hf] at hnext
      match hiter : it.iter with
      | [] =>
        rw [hiter] at hnext
        cases hnext
        rfl
      | (k, v) :: rest =>
        rw [hiter] at hnext
        match k with
        | [] => simp at hnext
        | b :: suffix =>
          by_cases hb : b = 97
          · subst hb
            simp only [ne_eq, not_true_eq_false, if_false, ite_false] at hnext
            match hp : parseU32 suffix with
            | some id => rw [hp] at hnext; simp at hnext
            | none => rw [hp] at hnext; simp at hnext
          · simp only [ne_eq, hb, not_false_eq_true, if_true, ite_true] at hnext
            cases hnext
            rfl
  · intro snap cm fuel hfuel
    exact collectActive_eq_scanYields _ fuel hfuel

/-- Witness for C5 on the example snapshot: a fused iterator stays
exhausted, a non-matching first key fuses, and the drain of the
example's iterator equals its forward scan. -/
theorem c5_iter_active_scan_witness :
    (ActiveChunksIterator.mk [] true).next = (some none, ActiveChunksIterator.mk [] true)
    ∧ (ActiveChunksIterator.mk [([98, 57], [])] false).next
        = (some none, ActiveChunksIterator.mk [] true)
    ∧ ((ActiveChunksIterator.mk [([98, 57], [])] false).next.2.fused = true)
    ∧ collectActive ((ChunkManager.mk 6).iter_active exampleSnapshot) 6
        = scanYields (exampleSnapshot.entries.dropWhile (fun e => bytesLt e.1 [97])) :=
  ⟨c5_iter_active_scan.2.1 ⟨[], true⟩ rfl,
   by decide,
   c5_iter_active_scan.2.2.1 ⟨[([98, 57], [])], false⟩ ⟨[], true⟩ (by decide),
   c5_iter_active_scan.2.2.2 exampleSnapshot ⟨6⟩ 6 (by decide)⟩

/-- `FieldType` from `src/src/mapping/mod.rs` lines 31-37. -/
inductive FieldType where
  | String : FieldType
  | Integer : FieldType
  | Boolean : FieldType
  | Date : FieldType
deriving DecidableEq

/-- Modelled from the spec: `abra::Token` (its defining module is not
under `src/`) is "a Term plus a sequence position" (§3). -/
structure Token where
  term : Term
  position : Nat
deriving DecidableEq

/-- Modelled from the spec: the ambient external functions used by
`process_value_for_index` whose crates are not under `src/` — `chrono`
RFC 3339 timestamp parsing (§4.2 Date) and Rust `f64` decimal
formatting (§4.2 String); the `f64` argument is its abstract bit
pattern. -/
structure ExternEnv where
  parseDate : String → Option DateTimeUTC
  f64ToString : Nat → String

/-- `FieldMapping` from `src/src/mapping/mod.rs` lines 67-77.  An
analyzer specification is abstracted to the pure token-producing
function its `initialise` denotes (§4.1: analyzers are deterministic,
pure and side-effect-free); the unused `index_ref` and the `f64`
`boost` weight are not modelled (no claim touches them). -/
structure FieldMapping where
  data_type : FieldType
  is_stored : Bool
  is_in_all : Bool
  base_analyzer : String → List Token
  index_analyzer_opt : Option (String → List Token)
  search_analyzer_opt : Option (String → List Token)

/-- `FieldMapping::index_analyzer` (lines 97-103): the override when
present, the base analyzer otherwise. -/
def FieldMapping.index_analyzer (fm : FieldMapping) : String → List Token :=
  match fm.index_analyzer_opt with
  | some a => a
  | none => fm.base_analyzer

/-- `FieldMapping::search_analyzer` (lines 105-111). -/
def FieldMapping.search_analyzer (fm : FieldMapping) : String → List Token :=
  match fm.search_analyzer_opt with
  | some a => a
  | none => fm.base_analyzer

/-- `parse_boolean` from `src/src/mapping/mod.rs` lines 201-220:
`"yes"`/`"no"` map to true/false, any other string or JSON kind to
false (with a non-fatal warning in the source). -/
def parse_boolean : Json → Bool
  | Json.Boolean val => val
  | Json.String s => if s = "yes" then true else if s = "no" then false else false
  | _ => false

/-- The `as i64` cast of a `u64` value: reinterpret the low 64 bits as
two's-complement. -/
def u64_as_i64 (n : Nat) : Int :=
  if n % 2 ^ 64 < 2 ^ 63 then (n % 2 ^ 64 : Int) else (n % 2 ^ 64 : Int) - 2 ^ 64

/-- Recursion measure for `process_value_for_index`: the String branch
re-processes stringified numbers and joined arrays as strings, which
never recurse further. -/
def jmeasure : Json → Nat
  | Json.String _ => 0
  | Json.I64 _ => 1
  | Json.U64 _ => 1
  | Json.F64 _ => 1
  | Json.Array _ => 2
  | _ => 0

/-- The String-type array rule (lines 136-151): strings collected in
order, nulls skipped, any other element kind rejects the whole field. -/
def collectStrings : JsonArr → Option (List String)
  | JsonArr.nil => some []
  | JsonArr.cons (Json.String s) rest => (collectStrings rest).map (s :: ·)
  | JsonArr.cons Json.Null rest => collectStrings rest
  | JsonArr.cons _ _ => none

/-- `FieldMapping::process_value_for_index` from `src/src/mapping/mod.rs`
lines 120-185. -/
def process_value_for_index (env : ExternEnv) (fm : FieldMapping) (value : Json) :
    Option (List Token) :=
  if value = Json.Null then none
  else
    match fm.data_type with
    | FieldType.String =>
      match value with
      | Json.String string => some (fm.index_analyzer string)
      | Json.I64 num => process_value_for_index env fm (Json.String (toString num))
      | Json.U64 num => process_value_for_index env fm (Json.String (toString num))
      | Json.F64 num => process_value_for_index env fm (Json.String (env.f64ToString num))
      | Json.Array array =>
        (collectStrings array).bind fun strings =>
          process_value_for_index env fm (Json.String (String.intercalate " " strings))
      | _ => none
    | FieldType.Integer =>
      match value with
      | Json.U64 num => some [⟨Term.I64 (u64_as_i64 num), 1⟩]
      | Json.I64 num => some [⟨Term.I64 num, 1⟩]
      | _ => none
    | FieldType.Boolean => some [⟨Term.Boolean (parse_boolean value), 1⟩]
    | FieldType.Date =>
      match value with
      | Json.String string =>
        match env.parseDate string with
        | some date_parsed => some [⟨Term.DateTime date_parsed, 1⟩]
        | none => none
      | Json.U64 _ => none
      | _ => none
termination_by jmeasure value
decreasing_by all_goals simp [jmeasure]

/-- A concrete Integer-typed field mapping (trivial analyzers). -/
def intFieldMapping : FieldMapping :=
  ⟨FieldType.Integer, false, true, fun _ => [], none, none⟩

/-- A concrete external environment (never consulted by the Integer
branch). -/
def noExtern : ExternEnv := ⟨fun _ => none, fun _ => ""⟩

/-- C3 counterexample: for an Integer-typed field, the unsigned JSON
value 123 does not yield the unsigned Term variant — the source wraps
it in `Term::I64(num as i64)`. -/
theorem c3_integer_unsigned_counterexample :
    process_value_for_index noExtern intFieldMapping (Json.U64 123)
      ≠ some [⟨Term.U64 123, 1⟩]
    ∧ process_value_for_index noExtern intFieldMapping (Json.U64 123)
      = some [⟨Term.I64 123, 1⟩] := by
  constructor
  · simp [process_value_for_index, intFieldMapping, u64_as_i64]
  · simp [process_value_for_index, intFieldMapping, u64_as_i64]

/-- C3 (amended): for every Integer-typed field mapping, both unsigned
and signed integral JSON values map to exactly one Token at position 1
wrapping the signed Term variant `I64` (an unsigned value is cast with
`as i64`), and every other JSON kind is rejected. -/
theorem c3_integer_field_processing :
    ∀ env : ExternEnv, ∀ fm : FieldMapping, fm.data_type = FieldType.Integer →
      (∀ n : Nat, process_value_for_index env fm (Json.U64 n)
        = some [⟨Term.I64 (u64_as_i64 n), 1⟩])
      ∧ (∀ i : Int, process_value_for_index env fm (Json.I64 i)
        = some [⟨Term.I64 i, 1⟩])
      ∧ process_value_for_index env fm Json.Null = none
      ∧ (∀ b : Bool, process_value_for_index env fm (Json.Boolean b) = none)
      ∧ (∀ bits : Nat, process_value_for_index env fm (Json.F64 bits) = none)
      ∧ (∀ s : String, process_value_for_index env fm (Json.String s) = none)
      ∧ (∀ xs : JsonArr, process_value_for_index env fm (Json.Array xs) = none)
      ∧ (∀ entries : JsonObj, process_value_for_index env fm (Json.Object entries) = none) := by
  intro env fm hdt
  refine ⟨?_, ?_, ?_, ?_, ?_, ?_, ?_, ?_⟩ <;>
    simp [process_value_for_index, hdt]

/-- Witness for C3 (amended) at the concrete Integer mapping with
inputs `U64 123`, `I64 (-7)`, and a rejected boolean. -/
theorem c3_integer_field_processing_witness :
    process_value_for_index noExtern intFieldMapping (Json.U64 123)
      = some [⟨Term.I64 (u64_as_i64 123), 1⟩]
    ∧ process_value_for_index noExtern intFieldMapping (Json.I64 (-7))
      = some [⟨Term.I64 (-7), 1⟩]
    ∧ process_value_for_index noExtern intFieldMapping (Json.Boolean true) = none :=
  ⟨(c3_integer_field_processing noExtern intFieldMapping rfl).1 123,
   (c3_integer_field_processing noExtern intFieldMapping rfl).2.1 (-7),
   (c3_integer_field_processing noExtern intFieldMapping rfl).2.2.2.1 true⟩

namespace query

/-- `Filter` from `src/src/query.rs` lines 20-27 (namespaced to mirror
the `query` module, since Mathlib already has a global `Filter`). -/
inductive Filter where
  | Term (field : String) (value : Json) : Filter
  | Prefix (field : String) (value : String) : Filter
  | And (filters : List Filter) : Filter
  | Or (filters : List Filter) : Filter
  | Not (filter : Filter) : Filter

/-- Modelled from the spec: `Document` (its defining module is not
under `src/`) is "an opaque raw field-name → JSON-value structure"
(§3); its `data` is the JSON object of raw fields, so the evaluator's
`doc.data.as_object().unwrap()` always succeeds. -/
structure Document where
  data : JsonObj

/-- Rust `str::starts_with` with a string pattern: the pattern's
characters are a prefix of the string's. -/
def str_starts_with (s pat : String) : Bool :=
  pat.toList.isPrefixOf s.toList

mutual

/-- `Filter::matches` from `src/src/query.rs` lines 31-73. -/
def Filter.matches : Filter → Document → Bool
  | Filter.Term field value, doc =>
    match getKey doc.data field with
    | some field_value => decide (field_value = value)
    | none => false
  | Filter.Prefix field value, doc =>
    match getKey doc.data field with
    | some (Json.String field_value) => str_starts_with field_value value
    | some _ => false
    | none => false
  | Filter.And filters, doc => Filter.allMatches filters doc
  | Filter.Or filters, doc => Filter.anyMatches filters doc
  | Filter.Not filter, doc => !(Filter.matches filter doc)

/-- The `And` loop of `Filter::matches` (lines 53-61): false at the
first non-matching child, in declaration order. -/
def Filter.allMatches : List Filter → Document → Bool
  | [], _ => true
  | f :: fs, doc => Filter.matches f doc && Filter.allMatches fs doc

/-- The `Or` loop of `Filter::matches` (lines 62-70): true at the
first matching child, in declaration order. -/
def Filter.anyMatches : List Filter → Document → Bool
  | [], _ => false
  | f :: fs, doc => Filter.matches f doc || Filter.anyMatches fs doc

end

/-- The example document `{"status": "open"}`. -/
def statusOpenDoc : Document :=
  ⟨JsonObj.cons "status" (Json.String "open") JsonObj.nil⟩

/-- C6: `Filter.matches` is a total boolean predicate with the spec's
semantics — `Term` matches iff the raw field value equals the literal
exactly, `Prefix` iff the raw field is a string with the literal
prefix, `And`/`Or` are the conjunction/disjunction of their children in
declaration order, `Not` inverts its child, and a missing field never
matches. -/
theorem c6_filter_matches_semantics :
    (∀ field : String, ∀ value : Json, ∀ doc : Document,
      Filter.matches (Filter.Term field value) doc = true
        ↔ getKey doc.data field = some value)
    ∧ (∀ field : String, ∀ value : String, ∀ doc : Document,
      Filter.matches (Filter.Prefix field value) doc = true
        ↔ ∃ s : String, getKey doc.data field = some (Json.String s)
            ∧ List.IsPrefix value.toList s.toList)
    ∧ (∀ fs : List Filter, ∀ doc : Document,
      Filter.matches (Filter.And fs) doc = fs.all (fun f => Filter.matches f doc))
    ∧ (∀ fs : List Filter, ∀ doc : Document,
      Filter.matches (Filter.Or fs) doc = fs.any (fun f => Filter.matches f doc))
    ∧ (∀ f : Filter, ∀ doc : Document,
      Filter.matches (Filter.Not f) doc = !(Filter.matches f doc))
    ∧ (∀ field : String, ∀ value : Json, ∀ doc : Document,
      getKey doc.data field = none → Filter.matches (Filter.Term field value) doc = false)
    ∧ (∀ field : String, ∀ value : String, ∀ doc : Document,
      getKey doc.data field = none → Filter.matches (Filter.Prefix field value) doc = false) := by
  refine ⟨?_, ?_, ?_, ?_, ?_, ?_, ?_⟩
  · intro field value doc
    rw [Filter.matches]
    match hk : getKey doc.data field with
    | some w => simp [hk]
    | none => simp [hk]
  · intro field value doc
    rw [Filter.matches]
    match hk : getKey doc.data field with
    | some (Json.String s) =>
      simp only [hk, str_starts_with, List.isPrefixOf_iff_prefix]
      constructor
      · intro h
        exact ⟨s, rfl, h⟩
      · rintro ⟨s', hs', hpre⟩
        cases hs'
        exact hpre
    | some Json.Null => simp [hk]
    | some (Json.Boolean b) => simp [hk]
    | some (Json.I64 n) => simp [hk]
    | some (Json.U64 n) => simp [hk]
    | some (Json.F64 bits) => simp [hk]
    | some (Json.Array xs) => simp [hk]
    | some (Json.Object entries) => simp [hk]
    | none => simp [hk]
  · intro fs doc
    rw [Filter.matches]
    induction fs with
    | nil => simp [Filter.allMatches]
    | cons f fs ih => simp [Filter.allMatches, ih]
  · intro fs doc
    rw [Filter.matches]
    induction fs with
    | nil => simp [Filter.anyMatches]
    | cons f fs ih => simp [Filter.anyMatches, ih]
  · intro f doc
    rw [Filter.matches]
  · intro field value doc hk
    rw [Filter.matches, hk]
  · intro field value doc hk
    rw [Filter.matches, hk]

/-- Witness for C6 on the document `{"status": "open"}`: matching and
missing-field cases at concrete inputs. -/
theorem c6_filter_matches_semantics_witness :
    (Filter.matches (Filter.Term "status" (Json.String "open")) statusOpenDoc = true
      ↔ getKey statusOpenDoc.data "status" = some (Json.String "open"))
    ∧ (Filter.matches (Filter.Not (Filter.Term "status" (Json.String "open"))) statusOpenDoc
      = !(Filter.matches (Filter.Term "status" (Json.String "open")) statusOpenDoc))
    ∧ Filter.matches (Filter.Term "missing" (Json.String "x")) statusOpenDoc = false
    ∧ Filter.matches (Filter.Prefix "missing" "x") statusOpenDoc = false :=
  ⟨c6_filter_matches_semantics.1 "status" (Json.String "open") statusOpenDoc,
   c6_filter_matches_semantics.2.2.2.2.1 (Filter.Term "status" (Json.String "open")) statusOpenDoc,
   c6_filter_matches_semantics.2.2.2.2.2.1 "missing" (Json.String "x") statusOpenDoc (by decide),
   c6_filter_matches_semantics.2.2.2.2.2.2 "missing" "x" statusOpenDoc (by decide)⟩

end query

namespace query

/-- A value found by `getKey` is structurally smaller than the object
holding it (termination measure for the recursive parsers). -/
theorem getKey_sizeOf_lt (obj : JsonObj) (k : String) (v : Json)
    (h : getKey obj k = some v) : sizeOf v < sizeOf obj := by
  match obj with
  | JsonObj.nil =>
    rw [getKey] at h
    exact absurd h (by simp)
  | JsonObj.cons k' v' rest =>
    rw [getKey] at h
    by_cases hk : k' = k
    · rw [if_pos hk] at h
      cases h
      simp
      try omega
    · rw [if_neg hk] at h
      have := getKey_sizeOf_lt rest k v h
      simp
      omega
termination_by sizeOf obj
decreasing_by simp; try omega

mutual

/-- `parse_filter` from `src/src/query.rs` lines 76-106 (the source's
`filter_json` object is the `JsonObj.cons first_key fv rest` the match
exposes, written out so the termination argument sees it).  `none`
models a panic of one of the source's `unwrap` calls: a non-object
filter, an object with no keys, a `term`/`prefix` payload that is not
an object or is empty, a `prefix` field value that is not a string, an
`and`/`or` value that is not an array, or any such failure in a
recursively parsed child. -/
def parse_filter : Json → Option Filter
  | Json.Object JsonObj.nil => none
  | Json.Object (JsonObj.cons first_key fv rest) =>
    if first_key = "term" then
      match getKey (JsonObj.cons first_key fv rest) "term" with
      | some (Json.Object inner) =>
        match inner with
        | JsonObj.nil => none
        | JsonObj.cons inner_key _ _ =>
          match getKey inner inner_key with
          | some v => some (Filter.Term inner_key v)
          | none => none
      | _ => none
    else if first_key = "prefix" then
      match getKey (JsonObj.cons first_key fv rest) "prefix" with
      | some (Json.Object inner) =>
        match inner with
        | JsonObj.nil => none
        | JsonObj.cons inner_key _ _ =>
          match getKey inner inner_key with
          | some (Json.String value) => some (Filter.Prefix inner_key value)
          | _ => none
      | _ => none
    else if first_key = "and" then
      match h : getKey (JsonObj.cons first_key fv rest) "and" with
      | some (Json.Array xs) => (parse_filter_arr xs).map Filter.And
      | _ => none
    else if first_key = "or" then
      match h : getKey (JsonObj.cons first_key fv rest) "or" with
      | some (Json.Array xs) => (parse_filter_arr xs).map Filter.Or
      | _ => none
    else if first_key = "not" then
      match h : getKey (JsonObj.cons first_key fv rest) "not" with
      | some inner => (parse_filter inner).map (fun f => Filter.Not f)
      | none => none
    else
      some (Filter.Term "not" (Json.String "implemented"))
  | _ => none
termination_by json => sizeOf json
decreasing_by
  all_goals
    first
      | (have h1 := getKey_sizeOf_lt _ _ _ h
         simp at h1 ⊢
         omega)
      | (simp
         try omega)

/-- The element loop of the `and`/`or` branches: each element parsed in
order (a child panic propagates). -/
def parse_filter_arr : JsonArr → Option (List Filter)
  | JsonArr.nil => some []
  | JsonArr.cons x rest =>
    match parse_filter x, parse_filter_arr rest with
    | some f, some fs => some (f :: fs)
    | _, _ => none
termination_by xs => sizeOf xs
decreasing_by
  all_goals
    simp
    try omega

end

end query

namespace query

/-- `QuerySyntaxError` from `src/src/query.rs` lines 6-17. -/
inductive QuerySyntaxError where
  | ExpectedObject : QuerySyntaxError
  | ExpectedString : QuerySyntaxError
  | ExpectedArray : QuerySyntaxError
  | UnknownQueryType (name : String) : QuerySyntaxError
  | NoQuery : QuerySyntaxError
  | FilteredNoFilter : QuerySyntaxError
  | FilteredNoQuery : QuerySyntaxError
  | MissingQueryString : QuerySyntaxError
  | MultiMatchMissingFields : QuerySyntaxError
deriving DecidableEq

/-- `Query` from `src/src/query.rs` lines 108-113. -/
inductive Query where
  | Match (field : String) (query : String) : Query
  | MultiMatch (fields : List String) (query : String) : Query
  | Filtered (query : Query) (filter : Filter) : Query

/-- The `fields` conversion loop of `parse_multi_match_query` (line
138): every element must be a string (`as_string().unwrap()`), `none`
models the panic on any other element kind. -/
def stringsOfArr : JsonArr → Option (List String)
  | JsonArr.nil => some []
  | JsonArr.cons (Json.String s) rest => (stringsOfArr rest).map (s :: ·)
  | JsonArr.cons _ _ => none

/-- `parse_match_query` from `src/src/query.rs` lines 115-130 (never
panics: every failure is a taxonomy error). -/
def parse_match_query (json : Json) : Except QuerySyntaxError Query :=
  match json with
  | Json.Object json_object =>
    match getKey json_object "field" with
    | some (Json.String field) =>
      match getKey json_object "query" with
      | none => Except.error QuerySyntaxError.MissingQueryString
      | some (Json.String q) => Except.ok (Query.Match field q)
      | some _ => Except.error QuerySyntaxError.ExpectedString
    | some _ => Except.error QuerySyntaxError.ExpectedString
    | none =>
      match getKey json_object "query" with
      | none => Except.error QuerySyntaxError.MissingQueryString
      | some (Json.String q) => Except.ok (Query.Match "_all" q)
      | some _ => Except.error QuerySyntaxError.ExpectedString
  | _ => Except.error QuerySyntaxError.ExpectedObject

/-- `parse_multi_match_query` from `src/src/query.rs` lines 132-148.
The outer `none` models the panic when a `fields` element is not a
string. -/
def parse_multi_match_query (json : Json) : Option (Except QuerySyntaxError Query) :=
  match json with
  | Json.Object json_object =>
    match getKey json_object "fields" with
    | none => some (Except.error QuerySyntaxError.MultiMatchMissingFields)
    | some (Json.Array arr) =>
      match stringsOfArr arr with
      | none => none
      | some fields =>
        match getKey json_object "query" with
        | none => some (Except.error QuerySyntaxError.MissingQueryString)
        | some (Json.String q) => some (Except.ok (Query.MultiMatch fields q))
        | some _ => some (Except.error QuerySyntaxError.ExpectedString)
    | some _ => some (Except.error QuerySyntaxError.ExpectedArray)
  | _ => some (Except.error QuerySyntaxError.ExpectedObject)

mutual

/-- `parse_query` from `src/src/query.rs` lines 165-181.  The outer
`none` models a panic propagated from `parse_filter` or from
`parse_multi_match_query`'s field loop; recognized keys dispatch to the
sub-parsers, an object with no keys is `NoQuery`, a non-object is
`ExpectedObject`, and any other first key is `UnknownQueryType`. -/
def parse_query : Json → Option (Except QuerySyntaxError Query)
  | Json.Object JsonObj.nil => some (Except.error QuerySyntaxError.NoQuery)
  | Json.Object (JsonObj.cons first_key fv rest) =>
    if first_key = "match" then
      match getKey (JsonObj.cons first_key fv rest) "match" with
      | some inner_query => some (parse_match_query inner_query)
      | none => none
    else if first_key = "multi_match" then
      match getKey (JsonObj.cons first_key fv rest) "multi_match" with
      | some inner_query => parse_multi_match_query inner_query
      | none => none
    else if first_key = "filtered" then
      match h : getKey (JsonObj.cons first_key fv rest) "filtered" with
      | some inner_query => parse_filtered_query inner_query
      | none => none
    else
      some (Except.error (QuerySyntaxError.UnknownQueryType first_key))
  | _ => some (Except.error QuerySyntaxError.ExpectedObject)
termination_by json => sizeOf json
decreasing_by
  all_goals
    first
      | (have h1 := getKey_sizeOf_lt _ _ _ h
         simp at h1 ⊢
         omega)
      | (simp
         try omega)

/-- `parse_filtered_query` from `src/src/query.rs` lines 150-163.  The
outer `none` models a panic propagated from `parse_filter` or from the
recursive `parse_query`. -/
def parse_filtered_query : Json → Option (Except QuerySyntaxError Query)
  | Json.Object json_object =>
    match getKey json_object "filter" with
    | none => some (Except.error QuerySyntaxError.FilteredNoFilter)
    | some filter_json =>
      match parse_filter filter_json with
      | none => none
      | some filter =>
        match h : getKey json_object "query" with
        | none => some (Except.error QuerySyntaxError.FilteredNoQuery)
        | some query_json =>
          match parse_query query_json with
          | none => none
          | some (Except.error e) => some (Except.error e)
          | some (Except.ok q) => some (Except.ok (Query.Filtered q filter))
  | _ => some (Except.error QuerySyntaxError.ExpectedObject)
termination_by json => sizeOf json
decreasing_by
  all_goals
    first
      | (have h1 := getKey_sizeOf_lt _ _ _ h
         simp at h1 ⊢
         omega)
      | (simp
         try omega)

end

end query

namespace query

/-- Looking up the key at the head of an object finds the head's
value. -/
theorem getKey_cons_self (k : String) (v : Json) (rest : JsonObj) :
    getKey (JsonObj.cons k v rest) k = some v := by
  simp [getKey]

/-- C8: `parse_query` on an object whose first key is `"match"`
defaults an absent `field` to `"_all"`; a missing `query` key yields
`MissingQueryString` (whether `field` is absent or a string); and any
object whose first key is none of `"match"`, `"multi_match"`,
`"filtered"` yields `UnknownQueryType` carrying that key. -/
theorem c8_parse_query_match_defaults_and_unknown :
    (∀ mp : JsonObj, ∀ rest : JsonObj, ∀ q : String,
      getKey mp "field" = none → getKey mp "query" = some (Json.String q) →
        parse_query (Json.Object (JsonObj.cons "match" (Json.Object mp) rest))
          = some (Except.ok (Query.Match "_all" q)))
    ∧ (∀ mp : JsonObj, ∀ rest : JsonObj,
      getKey mp "field" = none → getKey mp "query" = none →
        parse_query (Json.Object (JsonObj.cons "match" (Json.Object mp) rest))
          = some (Except.error QuerySyntaxError.MissingQueryString))
    ∧ (∀ mp : JsonObj, ∀ rest : JsonObj, ∀ s : String,
      getKey mp "field" = some (Json.String s) → getKey mp "query" = none →
        parse_query (Json.Object (JsonObj.cons "match" (Json.Object mp) rest))
          = some (Except.error QuerySyntaxError.MissingQueryString))
    ∧ (∀ k : String, ∀ fv : Json, ∀ rest : JsonObj,
      k ≠ "match" → k ≠ "multi_match" → k ≠ "filtered" →
        parse_query (Json.Object (JsonObj.cons k fv rest))
          = some (Except.error (QuerySyntaxError.UnknownQueryType k))) := by
  refine ⟨?_, ?_, ?_, ?_⟩
  · intro mp rest q hfield hquery
    rw [parse_query]
    simp only [getKey_cons_self, reduceIte]
    rw [parse_match_query]
    simp [hfield, hquery]
  · intro mp rest hfield hquery
    rw [parse_query]
    simp only [getKey_cons_self, reduceIte]
    rw [parse_match_query]
    simp [hfield, hquery]
  · intro mp rest s hfield hquery
    rw [parse_query]
    simp only [getKey_cons_self, reduceIte]
    rw [parse_match_query]
    simp [hfield, hquery]
  · intro k fv rest h1 h2 h3
    rw [parse_query]
    simp [h1, h2, h3]

/-- Witness for C8 on concrete queries: `{"match": {"query": "foo"}}`,
`{"match": {}}`, `{"match": {"field": "title"}}`, and `{"bogus": {}}`. -/
theorem c8_parse_query_match_defaults_and_unknown_witness :
    parse_query (Json.Object (JsonObj.cons "match"
        (Json.Object (JsonObj.cons "query" (Json.String "foo") JsonObj.nil)) JsonObj.nil))
      = some (Except.ok (Query.Match "_all" "foo"))
    ∧ parse_query (Json.Object (JsonObj.cons "match" (Json.Object JsonObj.nil) JsonObj.nil))
      = some (Except.error QuerySyntaxError.MissingQueryString)
    ∧ parse_query (Json.Object (JsonObj.cons "match"
        (Json.Object (JsonObj.cons "field" (Json.String "title") JsonObj.nil)) JsonObj.nil))
      = some (Except.error QuerySyntaxError.MissingQueryString)
    ∧ parse_query (Json.Object (JsonObj.cons "bogus" (Json.Object JsonObj.nil) JsonObj.nil))
      = some (Except.error (QuerySyntaxError.UnknownQueryType "bogus")) :=
  ⟨c8_parse_query_match_defaults_and_unknown.1
      (JsonObj.cons "query" (Json.String "foo") JsonObj.nil) JsonObj.nil "foo"
      (by simp [getKey]) (by simp [getKey]),
   c8_parse_query_match_defaults_and_unknown.2.1 JsonObj.nil JsonObj.nil
      (by simp [getKey]) (by simp [getKey]),
   c8_parse_query_match_defaults_and_unknown.2.2.1
      (JsonObj.cons "field" (Json.String "title") JsonObj.nil) JsonObj.nil "title"
      (by simp [getKey]) (by simp [getKey]),
   c8_parse_query_match_defaults_and_unknown.2.2.2
      "bogus" (Json.Object JsonObj.nil) JsonObj.nil
      (by decide) (by decide) (by decide)⟩

/-- C9: an unrecognized first filter key never errors — `parse_filter`
returns the sentinel `Term("not", "implemented")` instead. -/
theorem c9_parse_filter_unknown_key_sentinel :
    ∀ k : String, ∀ fv : Json, ∀ rest : JsonObj,
      k ≠ "term" → k ≠ "prefix" → k ≠ "and" → k ≠ "or" → k ≠ "not" →
        parse_filter (Json.Object (JsonObj.cons k fv rest))
          = some (Filter.Term "not" (Json.String "implemented")) := by
  intro k fv rest h1 h2 h3 h4 h5
  rw [parse_filter]
  simp [h1, h2, h3, h4, h5]

/-- Witness for C9 at the concrete filter `{"bogus": {}}`. -/
theorem c9_parse_filter_unknown_key_sentinel_witness :
    parse_filter (Json.Object (JsonObj.cons "bogus" (Json.Object JsonObj.nil) JsonObj.nil))
      = some (Filter.Term "not" (Json.String "implemented")) :=
  c9_parse_filter_unknown_key_sentinel "bogus" (Json.Object JsonObj.nil) JsonObj.nil
    (by decide) (by decide) (by decide) (by decide) (by decide)

end query

namespace query

mutual

/-- Well-formed filter JSON, written from the specified panic
conditions: the value must be an object with at least one key; if its
first key is `"term"` or `"prefix"` the payload must be a non-empty
object (for `"prefix"`, with a string first value); if it is `"and"` or
`"or"` the payload must be an array of well-formed filters; if `"not"`,
a well-formed filter; any other first key is acceptable (sentinel
substitution). -/
def wellFormedFilter : Json → Bool
  | Json.Object JsonObj.nil => false
  | Json.Object (JsonObj.cons first_key fv rest) =>
    if first_key = "term" then
      match getKey (JsonObj.cons first_key fv rest) "term" with
      | some (Json.Object (JsonObj.cons _ _ _)) => true
      | _ => false
    else if first_key = "prefix" then
      match getKey (JsonObj.cons first_key fv rest) "prefix" with
      | some (Json.Object (JsonObj.cons inner_key value tail)) =>
        match getKey (JsonObj.cons inner_key value tail) inner_key with
        | some (Json.String _) => true
        | _ => false
      | _ => false
    else if first_key = "and" then
      match h : getKey (JsonObj.cons first_key fv rest) "and" with
      | some (Json.Array xs) => wellFormedFilterArr xs
      | _ => false
    else if first_key = "or" then
      match h : getKey (JsonObj.cons first_key fv rest) "or" with
      | some (Json.Array xs) => wellFormedFilterArr xs
      | _ => false
    else if first_key = "not" then
      match h : getKey (JsonObj.cons first_key fv rest) "not" with
      | some inner => wellFormedFilter inner
      | none => false
    else true
  | _ => false
termination_by json => sizeOf json
decreasing_by
  all_goals
    first
      | (have h1 := getKey_sizeOf_lt _ _ _ h
         simp at h1 ⊢
         omega)
      | (simp
         try omega)

/-- Every element of an `and`/`or` payload is well-formed filter
JSON. -/
def wellFormedFilterArr : JsonArr → Bool
  | JsonArr.nil => true
  | JsonArr.cons x rest => wellFormedFilter x && wellFormedFilterArr rest
termination_by xs => sizeOf xs
decreasing_by
  all_goals
    simp
    try omega

end

/-- C10: `parse_filter` panics (`none`) exactly on ill-formed filter
JSON — a non-object, an empty object, a malformed recognized-key
payload, or such a failure in a recursive child — and succeeds on
exactly the well-formed inputs; `parse_query`, by contrast, returns
taxonomy errors on a non-object and on an empty object. -/
theorem c10_parse_filter_partiality :
    (∀ j : Json, (parse_filter j).isSome = wellFormedFilter j)
    ∧ (∀ xs : JsonArr, (parse_filter_arr xs).isSome = wellFormedFilterArr xs)
    ∧ parse_filter (Json.String "x") = none
    ∧ parse_filter (Json.Object JsonObj.nil) = none
    ∧ parse_query (Json.String "x") = some (Except.error QuerySyntaxError.ExpectedObject)
    ∧ parse_query (Json.Object JsonObj.nil) = some (Except.error QuerySyntaxError.NoQuery) := by
  have hpair : (∀ j : Json, (parse_filter j).isSome = wellFormedFilter j)
      ∧ (∀ xs : JsonArr, (parse_filter_arr xs).isSome = wellFormedFilterArr xs) := by
    refine parse_filter.mutual_induct
      (fun j => (parse_filter j).isSome = wellFormedFilter j)
      (fun xs => (parse_filter_arr xs).isSome = wellFormedFilterArr xs)
      ?_ ?_ ?_ ?_ ?_ ?_ ?_ ?_ ?_ ?_ ?_ ?_ ?_ ?_ ?_ ?_ ?_ ?_ ?_ ?_
    -- empty filter object
    · simp [parse_filter, wellFormedFilter]
    -- "term" with empty payload object
    · intro fv rest h
      simp [parse_filter, wellFormedFilter, h]
    -- "term" with non-empty payload object
    · intro fv rest inner_key value tail field_value h1 h2
      simp [parse_filter, wellFormedFilter, h1, h2]
    -- "term", impossible head-key lookup failure
    · intro fv rest inner_key value tail h1 h2
      simp [getKey] at h1
    -- "term" with a non-object payload
    · intro fv rest hfb
      rcases hg : getKey (JsonObj.cons "term" fv rest) "term" with _ | val
      · simp [parse_filter, wellFormedFilter, hg]
      · cases val
        case Object entries => exact absurd hg (hfb entries)
        all_goals simp [parse_filter, wellFormedFilter, hg]
    -- "prefix" with empty payload object
    · intro fv rest h1 h2
      simp [parse_filter, wellFormedFilter, h2]
    -- "prefix" with string-valued first entry
    · intro fv rest inner_key value tail s h1 h2 h3
      simp [parse_filter, wellFormedFilter, h2, h3]
    -- "prefix" with non-string first entry
    · intro fv rest inner_key value tail h1 hfb hg
      cases value
      case String s => exact absurd (getKey_cons_self inner_key (Json.String s) tail) (hfb s)
      all_goals simp [parse_filter, wellFormedFilter, hg, getKey_cons_self]
    -- "prefix" with a non-object payload
    · intro fv rest h1 hfb
      rcases hg : getKey (JsonObj.cons "prefix" fv rest) "prefix" with _ | val
      · simp [parse_filter, wellFormedFilter, hg]
      · cases val
        case Object entries => exact absurd hg (hfb entries)
        all_goals simp [parse_filter, wellFormedFilter, hg]
    -- "and" with an array payload
    · intro fv rest xs h1 h2 hg ih
      rw [parse_filter, wellFormedFilter]
      repeat' split
      all_goals simp_all [Option.isSome_map']
    -- "and" with a non-array payload
    · intro fv rest h1 h2 hfb
      rcases hg : getKey (JsonObj.cons "and" fv rest) "and" with _ | val
      · simp [parse_filter, wellFormedFilter, hg]
      · cases val
        case Array xs => exact absurd hg (hfb xs)
        all_goals simp [parse_filter, wellFormedFilter, hg]
    -- "or" with an array payload
    · intro fv rest xs h1 h2 h3 hg ih
      rw [parse_filter, wellFormedFilter]
      repeat' split
      all_goals simp_all [Option.isSome_map']
    -- "or" with a non-array payload
    · intro fv rest h1 h2 h3 hfb
      rcases hg : getKey (JsonObj.cons "or" fv rest) "or" with _ | val
      · simp [parse_filter, wellFormedFilter, hg]
      · cases val
        case Array xs => exact absurd hg (hfb xs)
        all_goals simp [parse_filter, wellFormedFilter, hg]
    -- "not" with a payload
    · intro fv rest inner h1 h2 h3 h4 hg ih
      rw [parse_filter, wellFormedFilter]
      repeat' split
      all_goals simp_all [Option.isSome_map']
    -- "not", impossible head-key lookup failure
    · intro fv rest h1 h2 h3 h4 hg
      simp [getKey] at hg
    -- unknown first key: sentinel
    · intro first_key fv rest h1 h2 h3 h4 h5
      simp [parse_filter, wellFormedFilter, h1, h2, h3, h4, h5]
    -- non-object values
    · intro x hnil hcons
      cases x
      case Object entries =>
        cases entries
        case nil => exact absurd rfl hnil
        case cons k v t => exact absurd rfl (hcons k v t)
      all_goals simp [parse_filter, wellFormedFilter]
    -- empty array payload
    · simp [parse_filter_arr, wellFormedFilterArr]
    -- array element and tail both parse
    · intro x rest f fs hrest hx ih1 ih2
      simp [parse_filter_arr, wellFormedFilterArr, hx, hrest, ← ih1, ← ih2]
    -- array element or tail panics
    · intro x rest hfb ih1 ih2
      rcases hx : parse_filter x with _ | f
      · rw [hx] at ih1
        simp [parse_filter_arr, wellFormedFilterArr, hx, ← ih1]
      · rcases hr : parse_filter_arr rest with _ | fs
        · rw [hr] at ih2
          simp [parse_filter_arr, wellFormedFilterArr, hx, hr, ← ih2]
        · exact absurd hr (hfb f fs hx)
  refine ⟨hpair.1, hpair.2, ?_, ?_, ?_, ?_⟩
  · rw [parse_filter] <;> simp
  · rw [parse_filter]
  · rw [parse_query] <;> simp
  · rw [parse_query]

end query
